import Mathlib

/-!
Verification development for the kidp control plane (reconciliation and
dispatch engine).  The Go sources are shallowly embedded as executable Lean
definitions:

* the record kinds (`Tenant`, `Team`, `Application`, `Database`, `Broker`,
  `NamespaceObj`) mirror the api/v1 structs, keeping exactly the fields the
  embedded operations read or write;
* the object store is a `Store` of record lists; `Get` is `find?` by key and
  `Update`/`UpdateStatus` replace the record with the matching key;
* `resolveTenant` mirrors internal/controller/tenantresolver.go;
* the broker registry (`matchesCriteria`, `calculateScore`, `selectBest`,
  `selectBroker`) mirrors pkg/brokerregistry; scores are modelled in `ℚ`
  (all quantities involved - an int32 priority, a ratio of two int32 values
  scaled by 100, and the constant heartbeat bonuses - are represented
  exactly, so `ℚ` and the source's float64 order the brokers identically);
* the Database reconciler mirrors the DatabaseReconciler (Reconcile,
  handleDeletion, cleanupDatabase, provisionDatabase); every store write the
  reconciler performs is recorded in a trace so that intermediate states are
  observable;
* the callback webhook server mirrors Server.handleCallback and
  Server.handleDatabaseCallback; Ed25519 verification and RFC 3339 timestamp
  parsing are abstracted into an environment (`CallbackEnv`), since the
  claims only depend on whether they succeed.
-/

namespace Kidp

/-- metav1.Condition restricted to the fields the code sets:
type, status (True/False as Bool), lastTransitionTime, reason, message. -/
structure Condition where
  condType : String
  condStatus : Bool
  lastTransitionTime : Int
  reason : String
  message : String
deriving DecidableEq

/-- api/v1 ObjectReference: name plus namespace. -/
structure ObjectReference where
  name : String
  ns : String
deriving DecidableEq

/-- api/v1 OwnerReference: kind, name, optional namespace ("" when unset). -/
structure OwnerReference where
  kind : String
  name : String
  ns : String
deriving DecidableEq

/-- api/v1 SecretReference. -/
structure SecretReference where
  name : String
  ns : String
deriving DecidableEq

/-- Tenant record (cluster-scoped).  `deleting` models a non-zero
deletionTimestamp. -/
structure Tenant where
  name : String
  deleting : Bool
  finalizers : List String
  phase : String
deriving DecidableEq

/-- Team record; `tenantRef` is Spec.TenantRef (`none` when nil). -/
structure Team where
  name : String
  ns : String
  labels : List (String × String)
  tenantRef : Option ObjectReference
deriving DecidableEq

/-- Application record; `owner` is Spec.Owner. -/
structure Application where
  name : String
  ns : String
  labels : List (String × String)
  owner : OwnerReference
deriving DecidableEq

/-- DatabaseSpec fields used by the reconciler. -/
structure DatabaseSpec where
  owner : OwnerReference
  engine : String
  version : String
  size : String
  target : String
deriving DecidableEq

/-- DatabaseStatus fields used by the reconciler and the callback server. -/
structure DatabaseStatus where
  phase : String
  endpoint : String
  port : Int
  connectionSecretRef : Option SecretReference
  deploymentID : String
  brokerRef : Option ObjectReference
  conditions : List Condition
deriving DecidableEq

/-- Database record with the metadata the reconciler touches. -/
structure Database where
  name : String
  ns : String
  labels : List (String × String)
  finalizers : List String
  deleting : Bool
  spec : DatabaseSpec
  status : DatabaseStatus
deriving DecidableEq

/-- BrokerCapability: resource type plus provider list (regions unused by the
selection code). -/
structure BrokerCapability where
  resourceType : String
  providers : List String
deriving DecidableEq

/-- BrokerSpec fields used by the registry and the dispatch client. -/
structure BrokerSpec where
  endpoint : String
  region : String
  cloudProvider : String
  capabilities : List BrokerCapability
  priority : Int
  maxConcurrentDeployments : Int
deriving DecidableEq

/-- BrokerStatus fields used by the registry and the callback server.
`lastHeartbeat` is an absolute time in seconds (`none` when nil). -/
structure BrokerStatus where
  phase : String
  lastHeartbeat : Option Int
  activeDeployments : Int
  callbackPublicKey : String
deriving DecidableEq

/-- Broker record. -/
structure Broker where
  name : String
  ns : String
  spec : BrokerSpec
  status : BrokerStatus
deriving DecidableEq

/-- A core/v1 Namespace: name and labels. -/
structure NamespaceObj where
  name : String
  labels : List (String × String)
deriving DecidableEq

/-- The frozen object store: one list per record kind. -/
structure Store where
  tenants : List Tenant
  teams : List Team
  apps : List Application
  databases : List Database
  brokers : List Broker
  namespaces : List NamespaceObj
deriving DecidableEq

/-- Label lookup, modelling Go map indexing `labels[k]`. -/
def getLabel (ls : List (String × String)) (k : String) : Option String :=
  (ls.find? (fun p => p.fst = k)).map (·.snd)

/-- Label assignment, modelling Go map assignment `labels[k] = v`. -/
def setLabel (ls : List (String × String)) (k v : String) : List (String × String) :=
  if ls.any (fun p => p.fst = k) then
    ls.map (fun p => if p.fst = k then (k, v) else p)
  else ls ++ [(k, v)]

def Store.findTenant (s : Store) (name : String) : Option Tenant :=
  s.tenants.find? (fun t => t.name = name)

def Store.findTeam (s : Store) (ns name : String) : Option Team :=
  s.teams.find? (fun t => t.ns = ns ∧ t.name = name)

def Store.findApp (s : Store) (ns name : String) : Option Application :=
  s.apps.find? (fun a => a.ns = ns ∧ a.name = name)

def Store.findDatabase (s : Store) (ns name : String) : Option Database :=
  s.databases.find? (fun d => d.ns = ns ∧ d.name = name)

def Store.findBroker (s : Store) (ns name : String) : Option Broker :=
  s.brokers.find? (fun b => b.ns = ns ∧ b.name = name)

def Store.findNamespace (s : Store) (name : String) : Option NamespaceObj :=
  s.namespaces.find? (fun n => n.name = name)

/-- `Update`/`UpdateStatus` on a Database: replace the record with the same
(namespace, name) key. -/
def Store.setDatabase (s : Store) (d0 : Database) : Store :=
  { s with databases := s.databases.map (fun x => if x.ns = d0.ns ∧ x.name = d0.name then d0 else x) }

/-- `Update` on a Tenant: replace the record with the same name. -/
def Store.setTenant (s : Store) (t0 : Tenant) : Store :=
  { s with tenants := s.tenants.map (fun x => if x.name = t0.name then t0 else x) }

/-- The platform's tenant label key. -/
def tenantLabelKey : String := "platform.company.com/tenant"

/-! ## Tenant resolver (internal/controller/tenantresolver.go) -/

/-- The three record kinds `resolveTenant` accepts. -/
inductive PlatformObj where
  | team (t : Team)
  | app (a : Application)
  | db (d : Database)
deriving DecidableEq

/-- `obj.GetNamespace()`. -/
def PlatformObj.objNs : PlatformObj → String
  | .team t => t.ns
  | .app a => a.ns
  | .db d => d.ns

/-- The namespace used to fetch a Database's owner: the owner's namespace when
set, else the database's own namespace. -/
def dbOwnerNs (d : Database) : String :=
  if d.spec.owner.ns ≠ "" then d.spec.owner.ns else d.ns

/-- Step 3 of `resolveTenant`: namespace-label fallback, then the final
"tenant unresolved" error. -/
def nsLabelFallback (s : Store) (obj : PlatformObj) : Except String Tenant :=
  let nsName := obj.objNs
  if nsName ≠ "" then
    match s.findNamespace nsName with
    | some nsObj =>
      match getLabel nsObj.labels tenantLabelKey with
      | some tn =>
        if tn ≠ "" then
          match s.findTenant tn with
          | some t => .ok t
          | none => .error "tenant label points to missing tenant"
        else .error "tenant unresolved"
      | none => .error "tenant unresolved"
    | none => .error "tenant unresolved"
  else .error "tenant unresolved"

/-- `resolveTenant(ctx, c, obj, depth)`: type-specific shortcut, then owner
traversal, then namespace-label fallback.  The source recurses with
`depth + 1` and fails on entry when `depth > maxDepth` (6); here the budget
is the structurally decreasing `fuel = 7 - depth`, so the entry point runs
with fuel 7 and fuel 0 is the depth-exhaustion error. -/
def resolveTenantAux (s : Store) : PlatformObj → Nat → Except String Tenant
  | _, 0 => .error "tenant resolution exceeded max depth"
  | obj, fuel + 1 =>
    match obj with
    | .team t =>
      match t.tenantRef with
      | some ref =>
        if ref.name ≠ "" then
          match s.findTenant ref.name with
          | some tn => .ok tn
          | none => .error "referenced tenant not found"
        else nsLabelFallback s obj
      | none => nsLabelFallback s obj
    | .app a =>
      if a.owner.kind = "Tenant" then
        match s.findTenant a.owner.name with
        | some tn => .ok tn
        | none => .error "referenced tenant not found"
      else if a.owner.kind = "Team" then
        match s.findTeam a.ns a.owner.name with
        | some tm => resolveTenantAux s (.team tm) fuel
        | none => .error "owner team not found"
      else if a.owner.kind = "Application" then
        match s.findApp a.ns a.owner.name with
        | some parent => resolveTenantAux s (.app parent) fuel
        | none => .error "owner application not found"
      else nsLabelFallback s obj
    | .db d =>
      if d.spec.owner.kind = "Tenant" then
        match s.findTenant d.spec.owner.name with
        | some tn => .ok tn
        | none => .error "referenced tenant not found"
      else if d.spec.owner.kind = "Team" then
        match s.findTeam (dbOwnerNs d) d.spec.owner.name with
        | some tm => resolveTenantAux s (.team tm) fuel
        | none => .error "owner team not found"
      else if d.spec.owner.kind = "Application" then
        match s.findApp (dbOwnerNs d) d.spec.owner.name with
        | some a => resolveTenantAux s (.app a) fuel
        | none => .error "owner application not found"
      else nsLabelFallback s obj

/-- `ResolveTenant`: the resolver entered at depth 0, i.e. with fuel 7. -/
def resolveTenant (s : Store) (obj : PlatformObj) : Except String Tenant :=
  resolveTenantAux s obj 7

/-! ## Broker registry (pkg/brokerregistry) -/

/-- SelectionCriteria. -/
structure SelectionCriteria where
  resourceType : String
  cloudProvider : String
  region : String
  provider : String
deriving DecidableEq

/-- The capability loop of `matchesCriteria`: some capability has the
requested resource type and, when a provider is requested, lists it. -/
def hasCapability (b : Broker) (c : SelectionCriteria) : Bool :=
  b.spec.capabilities.any (fun cap =>
    cap.resourceType = c.resourceType ∧
      (c.provider = "" ∨ cap.providers.contains c.provider))

/-- `Registry.matchesCriteria`. -/
def matchesCriteria (b : Broker) (c : SelectionCriteria) : Bool :=
  if b.status.phase ≠ "Ready" then false
  else if c.cloudProvider ≠ "" ∧ b.spec.cloudProvider ≠ c.cloudProvider then false
  else if c.region ≠ "" ∧ b.spec.region ≠ "" ∧ b.spec.region ≠ c.region then false
  else if c.resourceType ≠ "" ∧ ¬ hasCapability b c then false
  else if b.spec.maxConcurrentDeployments > 0 ∧
      b.status.activeDeployments ≥ b.spec.maxConcurrentDeployments then false
  else true

/-- `Registry.calculateScore`, in exact rational arithmetic.  `now` is the
current time in seconds (`time.Since(t) = now - t`). -/
def calculateScore (now : Int) (b : Broker) : ℚ :=
  let base : ℚ := (b.spec.priority : ℚ)
  let load : ℚ :=
    if b.spec.maxConcurrentDeployments > 0 then
      (1 - (b.status.activeDeployments : ℚ) / (b.spec.maxConcurrentDeployments : ℚ)) * 100
    else 0
  let heartbeat : ℚ :=
    match b.status.lastHeartbeat with
    | none => 0
    | some t => if now - t < 60 then 50 else if now - t < 300 then 25 else 0
  base + load + heartbeat

/-- `Registry.selectBest`: keep the candidate with the strictly greatest
score, ties resolved in favour of the earlier element. -/
def selectBest (now : Int) : List Broker → Option Broker
  | [] => none
  | b :: rest =>
    some (rest.foldl (fun best x =>
      if calculateScore now x > calculateScore now best then x else best) b)

/-- `Registry.SelectBroker` over a freshly refreshed cache: filter by
criteria, then pick the best-scoring candidate. -/
def selectBroker (now : Int) (brokers : List Broker) (c : SelectionCriteria) : Option Broker :=
  let candidates := brokers.filter (fun b => matchesCriteria b c)
  if candidates.isEmpty then none else selectBest now candidates

/-! ## Callback webhook server (webhook.Server in the controller sources) -/

/-- The decoded JSON callback body (webhook.CallbackRequest). -/
structure CallbackRequest where
  deploymentId : String
  resourceType : String
  resourceName : String
  ns : String
  callbackStatus : String
  phase : String
  message : String
  errorMsg : String
  time : Int
  endpoint : String
  port : Int
  connectionSecret : String
deriving DecidableEq

/-- An incoming HTTP request to /v1/callback.  `body` is `none` when the JSON
body does not decode; a header string is `""` when the header is absent
(Go's `Header.Get`). -/
structure HttpReq where
  method : String
  body : Option CallbackRequest
  brokerName : String
  timestampHdr : String
  signatureHdr : String
  publicKeyHdr : String
deriving DecidableEq

/-- Environment abstracting the primitives the handler calls: the wall clock,
RFC 3339 parsing (`none` = parse error, otherwise seconds), and Ed25519
verification of the signature over `timestamp + "." + canonical-body` under
the given base64 public key. -/
structure CallbackEnv where
  now : Int
  parseTime : String → Option Int
  verify : String → CallbackRequest → String → String → Bool

/-- The status mutation `handleDatabaseCallback` applies to the matched
Database: phase is overwritten with the payload's phase; on
success/Ready the endpoint, port, optional secret ref and a Ready=True
condition are written; on failure a Ready=False condition is written. -/
def updateDbCallback (d : Database) (cb : CallbackRequest) : Database :=
  let st0 := { d.status with phase := cb.phase }
  let st1 :=
    if cb.callbackStatus = "success" ∧ cb.phase = "Ready" then
      { st0 with
        endpoint := cb.endpoint
        port := cb.port
        connectionSecretRef :=
          if cb.connectionSecret ≠ "" then some ⟨cb.connectionSecret, cb.ns⟩
          else st0.connectionSecretRef
        conditions := [⟨"Ready", true, cb.time, "ProvisioningSucceeded", cb.message⟩] }
    else if cb.callbackStatus = "failed" then
      { st0 with
        conditions := [⟨"Ready", false, cb.time, "ProvisioningFailed", cb.errorMsg⟩] }
    else st0
  { d with status := st1 }

/-- The lookup in `handleDatabaseCallback`: list the databases in the
payload's namespace and take the first whose status deploymentID matches. -/
def Store.findDbByDeployment (s : Store) (ns did : String) : Option Database :=
  (s.databases.filter (fun d => d.ns = ns)).find? (fun d => d.status.deploymentID = did)

/-- `Server.handleDatabaseCallback`: find the record by correlation ID and
apply the status update; an error when no record matches. -/
def handleDatabaseCallback (s : Store) (cb : CallbackRequest) : Except String Store :=
  match s.findDbByDeployment cb.ns cb.deploymentId with
  | none => .error "database not found for deploymentId"
  | some d => .ok (s.setDatabase (updateDbCallback d cb))

/-- `Server.handleCallback`: the full request pipeline, returning the HTTP
status code and the resulting store. -/
def handleCallback (env : CallbackEnv) (s : Store) (req : HttpReq) : Nat × Store :=
  if req.method ≠ "POST" then (405, s)
  else
    match req.body with
    | none => (400, s)
    | some cb =>
      if req.brokerName = "" ∨ req.timestampHdr = "" ∨ req.signatureHdr = "" then (401, s)
      else
        match env.parseTime req.timestampHdr with
        | none => (400, s)
        | some ts =>
          if env.now - ts > 300 ∨ ts - env.now > 60 then (401, s)
          else
            match s.findBroker "default" req.brokerName with
            | none => (401, s)
            | some br =>
              let pub :=
                if br.status.callbackPublicKey = "" then req.publicKeyHdr
                else br.status.callbackPublicKey
              if pub = "" then (401, s)
              else if ¬ env.verify req.timestampHdr cb pub req.signatureHdr then (401, s)
              else if cb.resourceType = "database" then
                match handleDatabaseCallback s cb with
                | .error _ => (500, s)
                | .ok s1 => (200, s1)
              else (400, s)

/-! ## Database reconciler (DatabaseReconciler) -/

/-- The provision request the reconciler builds (pkg/brokerclient). -/
structure ProvisionRequest where
  resourceType : String
  resourceName : String
  ns : String
  team : String
  owner : String
  engine : String
  version : String
  size : String
deriving DecidableEq

/-- The broker's 202 response to a provision call. -/
structure ProvisionResponse where
  deploymentID : String
  respStatus : String
deriving DecidableEq

/-- The deprovision request. -/
structure DeprovisionRequest where
  deploymentID : String
  resourceType : String
  resourceName : String
  ns : String
deriving DecidableEq

/-- Environment for the reconciler's outbound HTTP calls; `none` models a
call that returns an error.  `now` feeds broker scoring. -/
structure BrokerEnv where
  now : Int
  provision : Broker → ProvisionRequest → Option ProvisionResponse
  deprovision : Broker → DeprovisionRequest → Option Unit

/-- Outcome of one reconcile invocation: the successive stores produced by
each write, whether an error was returned, and whether a requeue was
requested. -/
structure ReconcileOut where
  writes : List Store
  isErr : Bool
  requeue : Bool
deriving DecidableEq

def databaseFinalizerName : String := "platform.company.com/database-cleanup"

/-- Selection criteria for a database: resource type Database, provider =
spec.engine (used by both provision and deprovision paths). -/
def dbCriteria (d : Database) : SelectionCriteria :=
  ⟨"Database", "", "", d.spec.engine⟩

def buildProvisionReq (d : Database) : ProvisionRequest :=
  ⟨"database", d.name, d.ns, d.spec.owner.kind ++ "/" ++ d.spec.owner.name,
    d.spec.owner.name, d.spec.engine, d.spec.version, d.spec.size⟩

/-- `DatabaseReconciler.cleanupDatabase`: when a deploymentID is recorded,
prefer the recorded broker, else re-select by capability; deprovision when a
broker was found.  `false` = cleanup returned an error.  No store writes. -/
def cleanupDatabase (env : BrokerEnv) (s : Store) (d : Database) : Bool :=
  if d.status.deploymentID ≠ "" then
    let recorded : Option Broker :=
      match d.status.brokerRef with
      | some ref =>
        if ref.name ≠ "" then
          s.findBroker (if ref.ns = "" then d.ns else ref.ns) ref.name
        else none
      | none => none
    let selected : Option Broker :=
      match recorded with
      | some b => some b
      | none => selectBroker env.now s.brokers (dbCriteria d)
    match selected with
    | some b =>
      match env.deprovision b ⟨d.status.deploymentID, "database", d.name, d.ns⟩ with
      | some _ => true
      | none => false
    | none => true
  else true

/-- `DatabaseReconciler.handleDeletion`: run cleanup while the finalizer is
present; on success strip the finalizer and update. -/
def dbHandleDeletion (env : BrokerEnv) (s : Store) (d : Database) : ReconcileOut :=
  if ¬ d.finalizers.contains databaseFinalizerName then ⟨[], false, false⟩
  else if cleanupDatabase env s d then
    let d1 := { d with finalizers := d.finalizers.filter (· ≠ databaseFinalizerName) }
    ⟨[s.setDatabase d1], false, false⟩
  else ⟨[], true, false⟩

/-- `DatabaseReconciler.Reconcile` for the record at (ns, name), with every
store write recorded in the trace. -/
def databaseReconcile (env : BrokerEnv) (s : Store) (ns name : String) : ReconcileOut :=
  match s.findDatabase ns name with
  | none => ⟨[], false, false⟩
  | some db =>
    if db.deleting then dbHandleDeletion env s db
    else if ¬ db.finalizers.contains databaseFinalizerName then
      let db1 := { db with finalizers := db.finalizers ++ [databaseFinalizerName] }
      ⟨[s.setDatabase db1], false, true⟩
    else
      match resolveTenant s (.db db) with
      | .error _ =>
        let db1 := { db with status := { db.status with phase := "Suspended" } }
        ⟨[s.setDatabase db1], false, false⟩
      | .ok tenant =>
        if getLabel db.labels tenantLabelKey ≠ some tenant.name then
          let db1 := { db with labels := setLabel db.labels tenantLabelKey tenant.name }
          ⟨[s.setDatabase db1], false, true⟩
        else if db.status.deploymentID ≠ "" then ⟨[], false, false⟩
        else
          let db1 :=
            if db.status.phase ≠ "Provisioning" then
              { db with status := { db.status with phase := "Provisioning" } }
            else db
          let w1 : List Store :=
            if db.status.phase ≠ "Provisioning" then [s.setDatabase db1] else []
          let s1 := if db.status.phase ≠ "Provisioning" then s.setDatabase db1 else s
          match selectBroker env.now s1.brokers (dbCriteria db1) with
          | none =>
            let db2 := { db1 with status := { db1.status with phase := "Failed" } }
            ⟨w1 ++ [s1.setDatabase db2], true, false⟩
          | some broker =>
            match env.provision broker (buildProvisionReq db1) with
            | none =>
              let db2 := { db1 with status := { db1.status with phase := "Failed" } }
              ⟨w1 ++ [s1.setDatabase db2], true, false⟩
            | some resp =>
              let db2 := { db1 with status := { db1.status with
                deploymentID := resp.deploymentID
                brokerRef := some ⟨broker.name, broker.ns⟩ } }
              ⟨w1 ++ [s1.setDatabase db2], false, false⟩

/-! ## Tenant reconciler deletion handling (TenantReconciler.handleDeletion) -/

def tenantFinalizerName : String := "platform.company.com/tenant-cleanup"

/-- `TenantReconciler.handleDeletion`: if the finalizer is present it is
removed and the tenant updated; the descendant check is absent in the code
(left as a TODO). -/
def tenantHandleDeletion (s : Store) (t : Tenant) : List Store × Bool :=
  if ¬ t.finalizers.contains tenantFinalizerName then ([], false)
  else
    let t1 := { t with finalizers := t.finalizers.filter (· ≠ tenantFinalizerName) }
    ([s.setTenant t1], false)

/-- A Team / Application / Database carrying the label `tenant=<name>`
exists; this is the descendant check the specification requires for Tenant
deletion. -/
def hasLabelledDescendant (s : Store) (tenantName : String) : Bool :=
  s.teams.any (fun t => getLabel t.labels tenantLabelKey = some tenantName) ||
  s.apps.any (fun a => getLabel a.labels tenantLabelKey = some tenantName) ||
  s.databases.any (fun d => getLabel d.labels tenantLabelKey = some tenantName)

/-! ## Store lemmas -/

theorem find?_map_congr {α : Type _} (f : α → α) (p : α → Bool)
    (hf : ∀ x, p (f x) = p x) (l : List α) :
    (l.map f).find? p = (l.find? p).map f := by
  induction l with
  | nil => rfl
  | cons a l ih =>
    have hfa := hf a
    cases hpa : p a with
    | true =>
      rw [hpa] at hfa
      simp [List.find?_cons_of_pos, hpa, hfa]
    | false =>
      rw [hpa] at hfa
      simp [List.find?_cons_of_neg, hpa, hfa, ih]

theorem findDatabase_eq_key {s : Store} {ns name : String} {d : Database}
    (h : s.findDatabase ns name = some d) : d.ns = ns ∧ d.name = name := by
  have hp := List.find?_some h
  simpa using hp

theorem findDatabase_setDatabase (s : Store) (d0 : Database) (ns name : String) :
    (s.setDatabase d0).findDatabase ns name =
      (s.findDatabase ns name).map
        (fun x => if x.ns = d0.ns ∧ x.name = d0.name then d0 else x) := by
  unfold Store.setDatabase Store.findDatabase
  apply find?_map_congr
  intro x
  by_cases hx : x.ns = d0.ns ∧ x.name = d0.name
  · rw [if_pos hx, hx.1, hx.2]
  · rw [if_neg hx]

theorem setDatabase_setDatabase (s : Store) (d1 d2 : Database)
    (hns : d1.ns = d2.ns) (hname : d1.name = d2.name) :
    (s.setDatabase d1).setDatabase d2 = s.setDatabase d2 := by
  unfold Store.setDatabase
  simp only [List.map_map]
  have hmap : s.databases.map
      ((fun x => if x.ns = d2.ns ∧ x.name = d2.name then d2 else x) ∘
        fun x => if x.ns = d1.ns ∧ x.name = d1.name then d1 else x) =
      s.databases.map (fun x => if x.ns = d2.ns ∧ x.name = d2.name then d2 else x) := by
    apply List.map_congr_left
    intro x _
    simp only [Function.comp_apply]
    by_cases hx : x.ns = d2.ns ∧ x.name = d2.name
    · have hx1 : x.ns = d1.ns ∧ x.name = d1.name := by rw [hns, hname]; exact hx
      rw [if_pos hx1, if_pos ⟨hns, hname⟩, if_pos hx]
    · have hx1 : ¬ (x.ns = d1.ns ∧ x.name = d1.name) := by rw [hns, hname]; exact hx
      rw [if_neg hx1, if_neg hx]
  rw [hmap]

/-- Write-once observation for the correlation fields: every Database key
that resolves to a record with a non-empty deploymentID before the operation
resolves to a record with the same deploymentID and brokerRef afterwards. -/
def IdsPreserved (s s1 : Store) : Prop :=
  ∀ ns name d, s.findDatabase ns name = some d → d.status.deploymentID ≠ "" →
    ∃ d1, s1.findDatabase ns name = some d1 ∧
      d1.status.deploymentID = d.status.deploymentID ∧
      d1.status.brokerRef = d.status.brokerRef

theorem idsPreserved_refl (s : Store) : IdsPreserved s s :=
  fun _ _ d hd _ => ⟨d, hd, rfl, rfl⟩

theorem idsPreserved_set (s : Store) (d0 db0 : Database)
    (hfind : s.findDatabase d0.ns d0.name = some db0)
    (hid : db0.status.deploymentID ≠ "" →
      d0.status.deploymentID = db0.status.deploymentID ∧
      d0.status.brokerRef = db0.status.brokerRef) :
    IdsPreserved s (s.setDatabase d0) := by
  intro ns name d hd hne
  rw [findDatabase_setDatabase, hd]
  by_cases hk : d.ns = d0.ns ∧ d.name = d0.name
  · obtain ⟨hns, hname⟩ := findDatabase_eq_key hd
    have hq : ns = d0.ns ∧ name = d0.name := ⟨hns ▸ hk.1, hname ▸ hk.2⟩
    have : some db0 = some d := by rw [← hfind, ← hd, hq.1, hq.2]
    obtain rfl : db0 = d := by injection this
    obtain ⟨h1, h2⟩ := hid hne
    exact ⟨d0, by simp [hk], h1, h2⟩
  · exact ⟨d, by simp [hk], rfl, rfl⟩

theorem find?_key_of_mem_uniq :
    ∀ l : List Database, l.Pairwise (fun a b => ¬ (a.ns = b.ns ∧ a.name = b.name)) →
    ∀ m ∈ l, l.find? (fun d => d.ns = m.ns ∧ d.name = m.name) = some m := by
  intro l
  induction l with
  | nil => intro _ m hm; cases hm
  | cons a t ih =>
    intro hp m hm
    rw [List.pairwise_cons] at hp
    rcases List.mem_cons.mp hm with rfl | hmt
    · simp [List.find?_cons_of_pos]
    · have hne : ¬ (a.ns = m.ns ∧ a.name = m.name) := hp.1 m hmt
      rw [List.find?_cons_of_neg _ (by simpa using hne)]
      exact ih hp.2 m hmt

theorem findDatabase_of_mem_uniq {s : Store}
    (huniq : s.databases.Pairwise (fun a b => ¬ (a.ns = b.ns ∧ a.name = b.name)))
    {m : Database} (hm : m ∈ s.databases) :
    s.findDatabase m.ns m.name = some m :=
  find?_key_of_mem_uniq s.databases huniq m hm

theorem findDbByDeployment_mem {s : Store} {ns did : String} {d : Database}
    (h : s.findDbByDeployment ns did = some d) : d ∈ s.databases :=
  List.mem_of_mem_filter (List.mem_of_find?_eq_some h)

theorem brokers_setDatabase (s : Store) (d : Database) :
    (s.setDatabase d).brokers = s.brokers := rfl

theorem idsPreserved_set_set (s : Store) (d1 d2 db0 : Database)
    (hns : d1.ns = d2.ns) (hname : d1.name = d2.name)
    (hfind : s.findDatabase d2.ns d2.name = some db0)
    (hid : db0.status.deploymentID ≠ "" →
      d2.status.deploymentID = db0.status.deploymentID ∧
      d2.status.brokerRef = db0.status.brokerRef) :
    IdsPreserved s ((s.setDatabase d1).setDatabase d2) := by
  rw [setDatabase_setDatabase s d1 d2 hns hname]
  exact idsPreserved_set s d2 db0 hfind hid

theorem dbCriteria_setStatus (db : Database) (st : DatabaseStatus) :
    dbCriteria { db with status := st } = dbCriteria db := rfl

theorem updateDbCallback_key_ids (d : Database) (cb : CallbackRequest) :
    (updateDbCallback d cb).ns = d.ns ∧ (updateDbCallback d cb).name = d.name ∧
    (updateDbCallback d cb).status.deploymentID = d.status.deploymentID ∧
    (updateDbCallback d cb).status.brokerRef = d.status.brokerRef := by
  unfold updateDbCallback
  repeat' split
  all_goals simp

/-! ## C6 — broker candidacy filter -/

theorem hasCapability_iff (b : Broker) (c : SelectionCriteria) :
    hasCapability b c = true ↔
      ∃ cap ∈ b.spec.capabilities, cap.resourceType = c.resourceType ∧
        (c.provider ≠ "" → c.provider ∈ cap.providers) := by
  unfold hasCapability
  simp only [List.any_eq_true, decide_eq_true_eq]
  constructor
  · rintro ⟨cap, hcap, hrt, hp⟩
    refine ⟨cap, hcap, hrt, fun hne => ?_⟩
    rcases hp with hp | hp
    · exact absurd hp hne
    · exact List.elem_iff.mp hp
  · rintro ⟨cap, hcap, hrt, hp⟩
    refine ⟨cap, hcap, hrt, ?_⟩
    by_cases hpe : c.provider = ""
    · exact Or.inl hpe
    · exact Or.inr (List.elem_iff.mpr (hp hpe))

/-- The candidacy condition exactly as the candidate-filter claim states it,
with an unconditional capability clause. -/
abbrev claimedCandidate (b : Broker) (c : SelectionCriteria) : Prop :=
  b.status.phase = "Ready" ∧
  (c.cloudProvider ≠ "" → b.spec.cloudProvider = c.cloudProvider) ∧
  (c.region ≠ "" → b.spec.region ≠ "" → b.spec.region = c.region) ∧
  (∃ cap ∈ b.spec.capabilities, cap.resourceType = c.resourceType ∧
    (c.provider ≠ "" → c.provider ∈ cap.providers)) ∧
  (b.spec.maxConcurrentDeployments > 0 →
    b.status.activeDeployments < b.spec.maxConcurrentDeployments)

/-- A Ready broker with no declared capabilities, paired with criteria whose
fields are all empty. -/
def brokerC6 : Broker :=
  ⟨"b0", "default", ⟨"http://b0.example", "", "azure", [], 100, 0⟩, ⟨"Ready", none, 0, ""⟩⟩

def criteriaC6 : SelectionCriteria := ⟨"", "", "", ""⟩

/-- C6 counterexample: with an empty resource-kind the code skips the
capability check entirely, so `brokerC6` (which declares no capability at
all) is a candidate for `criteriaC6`, while the claim's condition — which
requires some capability to carry the criteria's resource-kind
unconditionally — rejects it. -/
theorem c6_candidacy_counterexample :
    ¬ (matchesCriteria brokerC6 criteriaC6 = true ↔ claimedCandidate brokerC6 criteriaC6) := by
  decide

/-- C6 (amended): a broker is a selection candidate iff its status phase is
Ready; the criteria's cloud-provider, when set, equals the broker's; the
regions agree when both are set; when the criteria's resource-kind is
non-empty, some declared capability has that resource-kind and, when the
criteria's provider is set, lists that provider; and, when the broker's
max-concurrent-deployments is positive, active-deployments is strictly
below it. -/
theorem c6_matchesCriteria_iff (b : Broker) (c : SelectionCriteria) :
    matchesCriteria b c = true ↔
      (b.status.phase = "Ready" ∧
       (c.cloudProvider ≠ "" → b.spec.cloudProvider = c.cloudProvider) ∧
       (c.region ≠ "" → b.spec.region ≠ "" → b.spec.region = c.region) ∧
       (c.resourceType ≠ "" →
         ∃ cap ∈ b.spec.capabilities, cap.resourceType = c.resourceType ∧
           (c.provider ≠ "" → c.provider ∈ cap.providers)) ∧
       (b.spec.maxConcurrentDeployments > 0 →
         b.status.activeDeployments < b.spec.maxConcurrentDeployments)) := by
  unfold matchesCriteria
  constructor
  · intro h
    split at h
    · cases h
    · next h1 =>
      split at h
      · cases h
      · next h2 =>
        split at h
        · cases h
        · next h3 =>
          split at h
          · cases h
          · next h4 =>
            split at h
            · cases h
            · next h5 =>
              push_neg at h1 h2 h3 h4 h5
              refine ⟨h1, fun hcp => h2 hcp, fun hr hbr => h3 hr hbr, fun hrt => ?_, fun hm => h5 hm⟩
              exact (hasCapability_iff b c).mp (by simpa using h4 hrt)
  · rintro ⟨h1, h2, h3, h4, h5⟩
    rw [if_neg (by simpa using h1)]
    rw [if_neg (by rintro ⟨ha, hb⟩; exact hb (h2 ha))]
    rw [if_neg (by rintro ⟨ha, hb, hc⟩; exact hc (h3 ha hb))]
    rw [if_neg (by
      rintro ⟨ha, hb⟩
      exact hb (by simpa using (hasCapability_iff b c).mpr (h4 ha)))]
    rw [if_neg (by rintro ⟨ha, hb⟩; exact absurd (h5 ha) (by omega))]

def c6ReadyBroker : Broker :=
  ⟨"b1", "default", ⟨"http://b1.example", "eastus", "azure",
    [⟨"Database", ["postgresql"]⟩], 100, 10⟩, ⟨"Ready", none, 3, ""⟩⟩

def c6Criteria : SelectionCriteria := ⟨"Database", "azure", "eastus", "postgresql"⟩

/-- C6 witness: the amended candidacy characterisation instantiated at a
Ready postgresql-capable broker and fully populated criteria. -/
theorem c6_matchesCriteria_iff_witness :
    matchesCriteria c6ReadyBroker c6Criteria = true ∧ claimedCandidate c6ReadyBroker c6Criteria := by
  constructor
  · refine (c6_matchesCriteria_iff c6ReadyBroker c6Criteria).mpr
      ⟨rfl, fun _ => rfl, fun _ _ => rfl, fun _ => ⟨⟨"Database", ["postgresql"]⟩, by decide⟩,
        fun _ => by decide⟩
  · exact ⟨rfl, fun _ => rfl, fun _ _ => rfl, ⟨⟨"Database", ["postgresql"]⟩, by decide⟩,
      fun _ => by decide⟩

/-! ## C2 — callback authentication failures are 401 and write nothing -/

/-- C2: for a POST callback whose body decodes, if a signing header is
missing, or the parsed timestamp lies outside the allowed window
(now - ts ≤ 5 min and ts - now ≤ 1 min), or the Ed25519 signature does not
verify under the broker's stored public key, then the handler answers 401
and the store is returned unchanged (no record is mutated). -/
theorem c2_callback_auth_rejected
    (env : CallbackEnv) (s : Store) (req : HttpReq) (cb : CallbackRequest)
    (hm : req.method = "POST") (hb : req.body = some cb)
    (hcase :
      (req.brokerName = "" ∨ req.timestampHdr = "" ∨ req.signatureHdr = "") ∨
      (∃ ts, env.parseTime req.timestampHdr = some ts ∧
        (env.now - ts > 300 ∨ ts - env.now > 60)) ∨
      (∃ ts br, env.parseTime req.timestampHdr = some ts ∧
        s.findBroker "default" req.brokerName = some br ∧
        br.status.callbackPublicKey ≠ "" ∧
        env.verify req.timestampHdr cb br.status.callbackPublicKey req.signatureHdr = false)) :
    handleCallback env s req = (401, s) := by
  unfold handleCallback
  rw [if_neg (by simp [hm]), hb]
  dsimp only
  rcases hcase with hmiss | ⟨ts, hts, hwin⟩ | ⟨ts, br, hts, hbr, hkey, hver⟩
  · rw [if_pos hmiss]
  · by_cases hmiss : req.brokerName = "" ∨ req.timestampHdr = "" ∨ req.signatureHdr = ""
    · rw [if_pos hmiss]
    · rw [if_neg hmiss, hts]
      dsimp only
      rw [if_pos hwin]
  · by_cases hmiss : req.brokerName = "" ∨ req.timestampHdr = "" ∨ req.signatureHdr = ""
    · rw [if_pos hmiss]
    · rw [if_neg hmiss, hts]
      dsimp only
      by_cases hwin : env.now - ts > 300 ∨ ts - env.now > 60
      · rw [if_pos hwin]
      · rw [if_neg hwin, hbr]
        dsimp only
        rw [if_neg hkey]
        rw [if_neg hkey, hver]
        simp

/-- C2 witness: a POST request with a well-formed body but an absent
broker-name header is answered 401 with the store untouched. -/
theorem c2_callback_auth_rejected_witness :
    handleCallback
      ⟨0, fun _ => none, fun _ _ _ _ => false⟩
      ⟨[], [], [], [], [], []⟩
      ⟨"POST", some ⟨"dep-1", "database", "db1", "dev", "success", "Ready", "", "", 0, "", 0, ""⟩,
        "", "2025-01-01T00:00:00Z", "c2lnbmF0dXJl", ""⟩ =
    (401, ⟨[], [], [], [], [], []⟩) :=
  c2_callback_auth_rejected _ _ _ _ rfl rfl (Or.inl (Or.inl rfl))

/-! ## C10 — broker lookup is confined to the "default" namespace -/

/-- C10: the receiver resolves the sending broker only at
(namespace "default", name = broker-name header); when no Broker record
exists there — even though one with that name exists in another namespace
and the signature would verify — the callback is rejected 401 with no
store write. -/
theorem c10_broker_lookup_default_only
    (env : CallbackEnv) (s : Store) (req : HttpReq) (cb : CallbackRequest) (ts : Int)
    (hm : req.method = "POST") (hb : req.body = some cb)
    (h1 : req.brokerName ≠ "") (h2 : req.timestampHdr ≠ "") (h3 : req.signatureHdr ≠ "")
    (hts : env.parseTime req.timestampHdr = some ts)
    (hwin : ¬ (env.now - ts > 300 ∨ ts - env.now > 60))
    (hnodefault : s.findBroker "default" req.brokerName = none)
    (_helse : ∃ b ∈ s.brokers, b.ns ≠ "default" ∧ b.name = req.brokerName)
    (_hsig : ∀ k, env.verify req.timestampHdr cb k req.signatureHdr = true) :
    handleCallback env s req = (401, s) := by
  unfold handleCallback
  rw [if_neg (by simp [hm]), hb]
  dsimp only
  rw [if_neg (by push_neg; exact ⟨h1, h2, h3⟩), hts]
  dsimp only
  rw [if_neg hwin, hnodefault]

/-- C10 witness: broker "b1" exists only in namespace "ops"; a callback
naming it, with a valid window and a verifier that accepts everything, is
still rejected 401 and the store is unchanged. -/
theorem c10_broker_lookup_default_only_witness :
    handleCallback
      ⟨0, fun _ => some 0, fun _ _ _ _ => true⟩
      ⟨[], [], [], [],
        [⟨"b1", "ops", ⟨"http://b1.example", "", "azure", [], 100, 0⟩, ⟨"Ready", none, 0, "cHVi"⟩⟩],
        []⟩
      ⟨"POST", some ⟨"dep-1", "database", "db1", "dev", "success", "Ready", "", "", 0, "", 0, ""⟩,
        "b1", "2025-01-01T00:00:00Z", "c2ln", ""⟩ =
    (401,
      ⟨[], [], [], [],
        [⟨"b1", "ops", ⟨"http://b1.example", "", "azure", [], 100, 0⟩, ⟨"Ready", none, 0, "cHVi"⟩⟩],
        []⟩) := by
  apply c10_broker_lookup_default_only _ _ _ _ 0 rfl rfl
  · decide
  · decide
  · decide
  · rfl
  · decide
  · rfl
  · exact ⟨_, List.mem_singleton.mpr rfl, by decide, rfl⟩
  · intro k; rfl

/-! ## C9 — Tenant deletion does not check for labelled descendants -/

/-- Tenant "acme" being deleted while a Team and a Database still carry the
label tenant=acme. -/
def c9Tenant : Tenant := ⟨"acme", true, ["platform.company.com/tenant-cleanup"], "Active"⟩

def c9Store : Store :=
  ⟨[c9Tenant],
   [⟨"frontend", "dev", [(tenantLabelKey, "acme")], none⟩],
   [],
   [⟨"db1", "dev", [(tenantLabelKey, "acme")], [], false,
     ⟨⟨"Team", "frontend", ""⟩, "postgresql", "16", "small", ""⟩,
     ⟨"Ready", "", 0, none, "dep-1", some ⟨"b1", "default"⟩, []⟩⟩],
   [], []⟩

/-- C9 (code bug): the claim — backed by the specification's deletion-safety
protocol — requires `TenantReconciler.handleDeletion` to refuse to drop the
tenant finalizer while a Team, Application or Database still carries the
label tenant=acme.  The source leaves that check as a TODO and removes the
finalizer unconditionally: evaluated at a store that still holds a labelled
Team and a labelled Database, the handler strips the finalizer (and reports
no error), allowing the Tenant to be deleted. -/
theorem c9_tenant_deletion_skips_descendant_check :
    hasLabelledDescendant c9Store "acme" = true ∧
    tenantHandleDeletion c9Store c9Tenant =
      ([⟨[⟨"acme", true, [], "Active"⟩],
         [⟨"frontend", "dev", [(tenantLabelKey, "acme")], none⟩],
         [],
         [⟨"db1", "dev", [(tenantLabelKey, "acme")], [], false,
           ⟨⟨"Team", "frontend", ""⟩, "postgresql", "16", "small", ""⟩,
           ⟨"Ready", "", 0, none, "dep-1", some ⟨"b1", "default"⟩, []⟩⟩],
         [], []⟩], false) := by
  constructor
  · decide
  · decide

/-! ## C4 — a failed callback on a Ready record -/

def c4Db : Database :=
  ⟨"db1", "dev", [], [], false,
   ⟨⟨"Team", "payments", ""⟩, "postgresql", "16", "small", ""⟩,
   ⟨"Ready", "db1.example", 5432, none, "dep-1", some ⟨"b1", "default"⟩, []⟩⟩

def c4Store : Store := ⟨[], [], [], [c4Db], [], []⟩

def c4Cb : CallbackRequest :=
  ⟨"dep-1", "database", "db1", "dev", "failed", "Failed", "", "boom", 5, "", 0, ""⟩

/-- C4 counterexample: a Database in phase Ready receives a verified
callback with status "failed" and phase "Failed".  The claim says the
record's phase is left unchanged (still Ready); the code assigns
`database.Status.Phase = callback.Phase` unconditionally, so the stored
phase becomes "Failed". -/
theorem c4_ready_phase_overwritten_counterexample :
    handleDatabaseCallback c4Store c4Cb =
      .ok ⟨[], [], [],
        [⟨"db1", "dev", [], [], false,
          ⟨⟨"Team", "payments", ""⟩, "postgresql", "16", "small", ""⟩,
          ⟨"Failed", "db1.example", 5432, none, "dep-1", some ⟨"b1", "default"⟩,
            [⟨"Ready", false, 5, "ProvisioningFailed", "boom"⟩]⟩⟩],
        [], []⟩ ∧
    c4Db.status.phase = "Ready" ∧ c4Cb.phase ≠ "Ready" := by
  refine ⟨?_, by decide, by decide⟩
  rfl

/-- C4 (amended): processing a verified callback with status "failed"
against the matched Database sets the Ready=False condition with reason
ProvisioningFailed and the payload's error in the message, but it also
overwrites the record's status phase with the payload's phase — even when
the record was already Ready. -/
theorem c4_failed_callback_sets_condition_and_overwrites_phase
    (s : Store) (cb : CallbackRequest) (d : Database)
    (hfind : s.findDbByDeployment cb.ns cb.deploymentId = some d)
    (_hready : d.status.phase = "Ready")
    (hfail : cb.callbackStatus = "failed") :
    handleDatabaseCallback s cb =
      .ok (s.setDatabase { d with status := { d.status with
        phase := cb.phase
        conditions := [⟨"Ready", false, cb.time, "ProvisioningFailed", cb.errorMsg⟩] } }) := by
  unfold handleDatabaseCallback
  rw [hfind]
  unfold updateDbCallback
  dsimp only
  rw [if_neg (by rw [hfail]; simp), if_pos hfail]

/-- C4 witness: the amended theorem applied at the concrete Ready record and
failed callback above. -/
theorem c4_failed_callback_witness :
    handleDatabaseCallback c4Store c4Cb =
      .ok (c4Store.setDatabase { c4Db with status := { c4Db.status with
        phase := c4Cb.phase
        conditions := [⟨"Ready", false, c4Cb.time, "ProvisioningFailed", c4Cb.errorMsg⟩] } }) :=
  c4_failed_callback_sets_condition_and_overwrites_phase c4Store c4Cb c4Db
    (by decide) rfl rfl

/-! ## C3 — correlation-ID lookup: zero and multiple matches -/

/-- C3 (amended): for a verified database callback, when no record in the
payload's namespace carries the payload's deploymentId the handler answers
500 (the not-found condition surfaces as a processing error, not 404) with
no store write; when one or more records match, the first matching record
in list order is updated and the handler answers 200 — no multiple-match
check is performed. -/
theorem c3_correlation_lookup
    (env : CallbackEnv) (s : Store) (req : HttpReq) (cb : CallbackRequest) (ts : Int) (br : Broker)
    (hm : req.method = "POST") (hb : req.body = some cb)
    (h1 : req.brokerName ≠ "") (h2 : req.timestampHdr ≠ "") (h3 : req.signatureHdr ≠ "")
    (hts : env.parseTime req.timestampHdr = some ts)
    (hwin : ¬ (env.now - ts > 300 ∨ ts - env.now > 60))
    (hbr : s.findBroker "default" req.brokerName = some br)
    (hkey : br.status.callbackPublicKey ≠ "")
    (hver : env.verify req.timestampHdr cb br.status.callbackPublicKey req.signatureHdr = true)
    (hrt : cb.resourceType = "database") :
    (s.findDbByDeployment cb.ns cb.deploymentId = none →
      handleCallback env s req = (500, s)) ∧
    (∀ d, s.findDbByDeployment cb.ns cb.deploymentId = some d →
      handleCallback env s req = (200, s.setDatabase (updateDbCallback d cb))) := by
  have hpipe : ∀ r : Except String Store, handleDatabaseCallback s cb = r →
      handleCallback env s req =
        (match r with
          | .error _ => (500, s)
          | .ok s1 => (200, s1)) := by
    intro r hr
    unfold handleCallback
    rw [if_neg (by simp [hm]), hb]
    dsimp only
    rw [if_neg (by push_neg; exact ⟨h1, h2, h3⟩), hts]
    dsimp only
    rw [if_neg hwin, hbr]
    dsimp only
    rw [if_neg hkey, if_neg hkey, hver]
    rw [if_neg (by simp), if_pos hrt, hr]
  constructor
  · intro hnone
    have := hpipe (.error "database not found for deploymentId")
      (by unfold handleDatabaseCallback; rw [hnone])
    simpa using this
  · intro d hd
    have := hpipe (.ok (s.setDatabase (updateDbCallback d cb)))
      (by unfold handleDatabaseCallback; rw [hd])
    simpa using this

def c3Env : CallbackEnv := ⟨0, fun _ => some 0, fun _ _ _ _ => true⟩

def c3Broker : Broker :=
  ⟨"b1", "default", ⟨"http://b1.example", "", "azure", [], 100, 0⟩, ⟨"Ready", none, 0, "cHVi"⟩⟩

def c3Cb : CallbackRequest :=
  ⟨"dep-1", "database", "db1", "dev", "success", "Ready", "ok", "", 7, "db1.example", 5432, ""⟩

def c3Req : HttpReq := ⟨"POST", some c3Cb, "b1", "2025-01-01T00:00:00Z", "c2ln", ""⟩

/-- A store with no database at all: zero records match dep-1. -/
def c3StoreA : Store := ⟨[], [], [], [], [c3Broker], []⟩

def c3DbFirst : Database :=
  ⟨"db1", "dev", [], [], false,
   ⟨⟨"Team", "payments", ""⟩, "postgresql", "16", "small", ""⟩,
   ⟨"Provisioning", "", 0, none, "dep-1", some ⟨"b1", "default"⟩, []⟩⟩

def c3DbSecond : Database :=
  ⟨"db2", "dev", [], [], false,
   ⟨⟨"Team", "payments", ""⟩, "postgresql", "16", "small", ""⟩,
   ⟨"Provisioning", "", 0, none, "dep-1", some ⟨"b1", "default"⟩, []⟩⟩

/-- A store in which two databases of namespace dev share deploymentId
dep-1. -/
def c3StoreB : Store := ⟨[], [], [], [c3DbFirst, c3DbSecond], [c3Broker], []⟩

/-- C3 counterexample: the claim says zero matches yield 404 and more than
one match yields 500 with no update.  On the code, the zero-match verified
callback is answered 500, and with two matching records the handler updates
the first one and answers 200. -/
theorem c3_correlation_lookup_counterexample :
    handleCallback c3Env c3StoreA c3Req = (500, c3StoreA) ∧
    (handleCallback c3Env c3StoreA c3Req).1 ≠ 404 ∧
    handleCallback c3Env c3StoreB c3Req =
      (200, c3StoreB.setDatabase (updateDbCallback c3DbFirst c3Cb)) ∧
    (handleCallback c3Env c3StoreB c3Req).1 ≠ 500 := by
  refine ⟨rfl, by decide, rfl, by decide⟩

/-- C3 witness: the amended theorem applied at the two concrete stores
above. -/
theorem c3_correlation_lookup_witness :
    handleCallback c3Env c3StoreA c3Req = (500, c3StoreA) ∧
    handleCallback c3Env c3StoreB c3Req =
      (200, c3StoreB.setDatabase (updateDbCallback c3DbFirst c3Cb)) := by
  constructor
  · exact (c3_correlation_lookup c3Env c3StoreA c3Req c3Cb 0 c3Broker rfl rfl
      (by decide) (by decide) (by decide) rfl (by decide) (by decide) (by decide) rfl rfl).1
      (by decide)
  · exact (c3_correlation_lookup c3Env c3StoreB c3Req c3Cb 0 c3Broker rfl rfl
      (by decide) (by decide) (by decide) rfl (by decide) (by decide) (by decide) rfl rfl).2
      c3DbFirst (by decide)

/-! ## C7 — selection is monotone in priority among otherwise-equal brokers -/

theorem selectBest_foldl_spec (now : Int) :
    ∀ (l : List Broker) (acc : Broker),
      (l.foldl (fun best x =>
        if calculateScore now x > calculateScore now best then x else best) acc = acc ∨
       l.foldl (fun best x =>
        if calculateScore now x > calculateScore now best then x else best) acc ∈ l) ∧
      calculateScore now acc ≤
        calculateScore now (l.foldl (fun best x =>
          if calculateScore now x > calculateScore now best then x else best) acc) ∧
      ∀ x ∈ l, calculateScore now x ≤
        calculateScore now (l.foldl (fun best x =>
          if calculateScore now x > calculateScore now best then x else best) acc) := by
  intro l
  induction l with
  | nil => exact fun acc => ⟨Or.inl rfl, le_refl _, by simp⟩
  | cons a t ih =>
    intro acc
    simp only [List.foldl_cons]
    by_cases hc : calculateScore now a > calculateScore now acc
    · rw [if_pos hc]
      obtain ⟨hmem, hle, hall⟩ := ih a
      refine ⟨?_, le_trans (le_of_lt hc) hle, ?_⟩
      · rcases hmem with h | h
        · exact Or.inr (by rw [h]; exact List.mem_cons_self a t)
        · exact Or.inr (List.mem_cons_of_mem a h)
      · intro x hx
        rcases List.mem_cons.mp hx with rfl | hxt
        · exact hle
        · exact hall x hxt
    · rw [if_neg hc]
      obtain ⟨hmem, hle, hall⟩ := ih acc
      refine ⟨?_, hle, ?_⟩
      · rcases hmem with h | h
        · exact Or.inl h
        · exact Or.inr (List.mem_cons_of_mem a h)
      · intro x hx
        rcases List.mem_cons.mp hx with rfl | hxt
        · exact le_trans (le_of_not_lt hc) hle
        · exact hall x hxt

/-- C7: (i) with the load inputs (max-concurrent, active deployments) and
the heartbeat held equal, the broker score is strictly monotone in the
priority field; (ii) whenever `selectBest` picks a broker from a candidate
list whose members all agree on those inputs, the picked broker has maximal
priority among the candidates. -/
theorem c7_priority_monotonicity :
    (∀ (now : Int) (b1 b2 : Broker),
      b1.spec.maxConcurrentDeployments = b2.spec.maxConcurrentDeployments →
      b1.status.activeDeployments = b2.status.activeDeployments →
      b1.status.lastHeartbeat = b2.status.lastHeartbeat →
      b1.spec.priority < b2.spec.priority →
      calculateScore now b1 < calculateScore now b2) ∧
    (∀ (now : Int) (l : List Broker) (b : Broker),
      selectBest now l = some b →
      (∀ x ∈ l, x.spec.maxConcurrentDeployments = b.spec.maxConcurrentDeployments ∧
        x.status.activeDeployments = b.status.activeDeployments ∧
        x.status.lastHeartbeat = b.status.lastHeartbeat) →
      ∀ x ∈ l, x.spec.priority ≤ b.spec.priority) := by
  have hscore : ∀ (now : Int) (b1 b2 : Broker),
      b1.spec.maxConcurrentDeployments = b2.spec.maxConcurrentDeployments →
      b1.status.activeDeployments = b2.status.activeDeployments →
      b1.status.lastHeartbeat = b2.status.lastHeartbeat →
      calculateScore now b1 - calculateScore now b2 =
        (b1.spec.priority : ℚ) - (b2.spec.priority : ℚ) := by
    intro now b1 b2 hmax hact hhb
    unfold calculateScore
    rw [hmax, hact, hhb]
    ring
  constructor
  · intro now b1 b2 hmax hact hhb hp
    have hdiff := hscore now b1 b2 hmax hact hhb
    have hq : (b1.spec.priority : ℚ) < (b2.spec.priority : ℚ) := by exact_mod_cast hp
    linarith
  · intro now l b hsel hsame x hx
    cases l with
    | nil => cases hsel
    | cons hd t =>
      unfold selectBest at hsel
      injection hsel with hb
      obtain ⟨_, hacc, hall⟩ := selectBest_foldl_spec now t hd
      have hxle : calculateScore now x ≤ calculateScore now b := by
        rcases List.mem_cons.mp hx with rfl | hxt
        · exact hb ▸ hacc
        · exact hb ▸ hall x hxt
      obtain ⟨h1, h2, h3⟩ := hsame x hx
      have hdiff := hscore now x b h1 h2 h3
      have hq : (x.spec.priority : ℚ) ≤ (b.spec.priority : ℚ) := by linarith
      exact_mod_cast hq

def c7LowBroker : Broker :=
  ⟨"b-low", "default", ⟨"http://low.example", "eastus", "azure",
    [⟨"Database", ["postgresql"]⟩], 100, 0⟩, ⟨"Ready", none, 0, ""⟩⟩

def c7HighBroker : Broker :=
  ⟨"b-high", "default", ⟨"http://high.example", "eastus", "azure",
    [⟨"Database", ["postgresql"]⟩], 200, 0⟩, ⟨"Ready", none, 0, ""⟩⟩

/-- C7 witness: two Ready brokers identical except for priority 100 vs 200;
the low one scores strictly less, and the selected broker's priority bounds
both candidates. -/
theorem c7_priority_monotonicity_witness :
    calculateScore 0 c7LowBroker < calculateScore 0 c7HighBroker ∧
    (∀ x ∈ [c7LowBroker, c7HighBroker], x.spec.priority ≤ c7HighBroker.spec.priority) := by
  constructor
  · exact c7_priority_monotonicity.1 0 c7LowBroker c7HighBroker rfl rfl rfl (by decide)
  · refine c7_priority_monotonicity.2 0 [c7LowBroker, c7HighBroker] c7HighBroker ?_ ?_
    · have hlt : calculateScore 0 c7LowBroker < calculateScore 0 c7HighBroker := by
        unfold calculateScore c7LowBroker c7HighBroker
        norm_num
      unfold selectBest
      simp only [List.foldl]
      rw [if_pos hlt]
    · intro x hx
      rcases List.mem_cons.mp hx with rfl | hx
      · exact ⟨rfl, rfl, rfl⟩
      · rcases List.mem_cons.mp hx with rfl | hx
        · exact ⟨rfl, rfl, rfl⟩
        · cases hx

/-! ## C8 — tenant resolution correctness -/

/-- The owner chain the resolver walks: from a record, hop through existing
owners (Team or Application kinds, with the resolver's namespace rules)
until a Team is reached; the index counts the hops. -/
inductive ReachesTeam (s : Store) : PlatformObj → Team → Nat → Prop where
  | here (tm : Team) : ReachesTeam s (.team tm) tm 0
  | dbTeam (d : Database) (tm : Team) :
      d.spec.owner.kind = "Team" →
      s.findTeam (dbOwnerNs d) d.spec.owner.name = some tm →
      ReachesTeam s (.db d) tm 1
  | dbApp (d : Database) (a : Application) (tm : Team) (k : Nat) :
      d.spec.owner.kind = "Application" →
      s.findApp (dbOwnerNs d) d.spec.owner.name = some a →
      ReachesTeam s (.app a) tm k →
      ReachesTeam s (.db d) tm (k + 1)
  | appTeam (a : Application) (tm : Team) :
      a.owner.kind = "Team" →
      s.findTeam a.ns a.owner.name = some tm →
      ReachesTeam s (.app a) tm 1
  | appApp (a parent : Application) (tm : Team) (k : Nat) :
      a.owner.kind = "Application" →
      s.findApp a.ns a.owner.name = some parent →
      ReachesTeam s (.app parent) tm k →
      ReachesTeam s (.app a) tm (k + 1)

theorem resolveTenantAux_of_reaches (s : Store) {o : PlatformObj} {tm : Team} {k : Nat}
    (h : ReachesTeam s o tm k) :
    ∀ fuel, k < fuel →
      resolveTenantAux s o fuel = resolveTenantAux s (.team tm) (fuel - k) := by
  induction h with
  | here tm => intro fuel _; rw [Nat.sub_zero]
  | dbTeam d tm hk hft =>
    intro fuel hf
    obtain ⟨f, rfl⟩ : ∃ f, fuel = f + 1 := ⟨fuel - 1, by omega⟩
    rw [Nat.add_sub_cancel]
    conv_lhs => rw [resolveTenantAux]
    rw [if_neg (by rw [hk]; decide), if_pos hk, hft]
  | dbApp d a tm k hk hfa _ ih =>
    intro fuel hf
    obtain ⟨f, rfl⟩ : ∃ f, fuel = f + 1 := ⟨fuel - 1, by omega⟩
    have hs : f + 1 - (k + 1) = f - k := by omega
    rw [hs]
    conv_lhs => rw [resolveTenantAux]
    rw [if_neg (by rw [hk]; decide), if_neg (by rw [hk]; decide), if_pos hk, hfa]
    exact ih f (by omega)
  | appTeam a tm hk hft =>
    intro fuel hf
    obtain ⟨f, rfl⟩ : ∃ f, fuel = f + 1 := ⟨fuel - 1, by omega⟩
    rw [Nat.add_sub_cancel]
    conv_lhs => rw [resolveTenantAux]
    rw [if_neg (by rw [hk]; decide), if_pos hk, hft]
  | appApp a parent tm k hk hfa _ ih =>
    intro fuel hf
    obtain ⟨f, rfl⟩ : ∃ f, fuel = f + 1 := ⟨fuel - 1, by omega⟩
    have hs : f + 1 - (k + 1) = f - k := by omega
    rw [hs]
    conv_lhs => rw [resolveTenantAux]
    rw [if_neg (by rw [hk]; decide), if_neg (by rw [hk]; decide), if_pos hk, hfa]
    exact ih f (by omega)

theorem resolveTenantAux_team_shortcut (s : Store) (tm : Team) (ref : ObjectReference)
    (t : Tenant) (f : Nat) (href : tm.tenantRef = some ref) (hname : ref.name ≠ "")
    (ht : s.findTenant ref.name = some t) :
    resolveTenantAux s (.team tm) (f + 1) = .ok t := by
  conv_lhs => rw [resolveTenantAux]
  rw [href]
  dsimp only
  rw [if_pos hname, ht]

/-- The record offers the resolver no tenant shortcut and no owner to
follow, so only the namespace-label fallback can apply. -/
def noTenantShortcut : PlatformObj → Prop
  | .team tm => ∀ ref, tm.tenantRef = some ref → ref.name = ""
  | .app a => a.owner.kind ≠ "Tenant" ∧ a.owner.kind ≠ "Team" ∧ a.owner.kind ≠ "Application"
  | .db d => d.spec.owner.kind ≠ "Tenant" ∧ d.spec.owner.kind ≠ "Team" ∧
      d.spec.owner.kind ≠ "Application"

/-- C8: (i) a record whose spec carries a usable tenant reference resolves
to the referenced Tenant when it exists; (ii) a record whose owner chain
reaches (within the depth budget) a Team whose tenantRef names an existing
Tenant resolves to that Tenant; (iii) a record giving the resolver neither
a spec reference nor an owner to follow resolves through its namespace's
tenant label to the labelled Tenant when it exists. -/
theorem c8_resolution_correctness :
    (∀ (s : Store) (tm : Team) (ref : ObjectReference) (t : Tenant),
      tm.tenantRef = some ref → ref.name ≠ "" → s.findTenant ref.name = some t →
      resolveTenant s (.team tm) = .ok t) ∧
    (∀ (s : Store) (o : PlatformObj) (tm : Team) (k : Nat) (ref : ObjectReference) (t : Tenant),
      ReachesTeam s o tm k → k ≤ 6 →
      tm.tenantRef = some ref → ref.name ≠ "" → s.findTenant ref.name = some t →
      resolveTenant s o = .ok t) ∧
    (∀ (s : Store) (o : PlatformObj) (nsObj : NamespaceObj) (tn : String) (t : Tenant),
      noTenantShortcut o → o.objNs ≠ "" →
      s.findNamespace o.objNs = some nsObj →
      getLabel nsObj.labels tenantLabelKey = some tn → tn ≠ "" →
      s.findTenant tn = some t →
      resolveTenant s o = .ok t) := by
  refine ⟨?_, ?_, ?_⟩
  · intro s tm ref t href hname ht
    exact resolveTenantAux_team_shortcut s tm ref t 6 href hname ht
  · intro s o tm k ref t hreach hk href hname ht
    unfold resolveTenant
    rw [resolveTenantAux_of_reaches s hreach 7 (by omega)]
    obtain ⟨f, hf⟩ : ∃ f, 7 - k = f + 1 := ⟨6 - k, by omega⟩
    rw [hf]
    exact resolveTenantAux_team_shortcut s tm ref t f href hname ht
  · intro s o nsObj tn t hsc hns hfns hlab htn ht
    have hfb : nsLabelFallback s o = .ok t := by
      unfold nsLabelFallback
      rw [if_pos hns, hfns]
      dsimp only
      rw [hlab]
      dsimp only
      rw [if_pos htn, ht]
    unfold resolveTenant
    rw [show (7 : Nat) = 6 + 1 from rfl]
    cases o with
    | team tm =>
      conv_lhs => rw [resolveTenantAux]
      cases htr : tm.tenantRef with
      | none => exact hfb
      | some ref =>
        have hrn := hsc ref htr
        dsimp only
        rw [if_neg (by simpa using hrn)]
        exact hfb
    | app a =>
      conv_lhs => rw [resolveTenantAux]
      rw [if_neg hsc.1, if_neg hsc.2.1, if_neg hsc.2.2]
      exact hfb
    | db d =>
      conv_lhs => rw [resolveTenantAux]
      rw [if_neg hsc.1, if_neg hsc.2.1, if_neg hsc.2.2]
      exact hfb

def c8Tenant : Tenant := ⟨"acme", false, [], "Active"⟩

def c8Team : Team := ⟨"pt", "dev", [], some ⟨"acme", ""⟩⟩

def c8App : Application := ⟨"app1", "dev", [], ⟨"Team", "pt", ""⟩⟩

def c8Db : Database :=
  ⟨"db", "dev", [], [], false,
   ⟨⟨"Application", "app1", ""⟩, "postgresql", "16", "small", ""⟩,
   ⟨"", "", 0, none, "", none, []⟩⟩

def c8DbNoOwner : Database :=
  ⟨"db2", "dev", [], [], false,
   ⟨⟨"", "", ""⟩, "postgresql", "16", "small", ""⟩,
   ⟨"", "", 0, none, "", none, []⟩⟩

def c8Namespace : NamespaceObj := ⟨"dev", [(tenantLabelKey, "acme")]⟩

def c8Store : Store :=
  ⟨[c8Tenant], [c8Team], [c8App], [c8Db, c8DbNoOwner], [], [c8Namespace]⟩

/-- C8 witness: Team pt refers to Tenant acme directly; db's owner chain
db → app1 → pt reaches the Team in two hops; db2 has no usable owner and
resolves through the dev namespace label. -/
theorem c8_resolution_correctness_witness :
    resolveTenant c8Store (.team c8Team) = .ok c8Tenant ∧
    resolveTenant c8Store (.db c8Db) = .ok c8Tenant ∧
    resolveTenant c8Store (.db c8DbNoOwner) = .ok c8Tenant := by
  refine ⟨?_, ?_, ?_⟩
  · exact c8_resolution_correctness.1 c8Store c8Team ⟨"acme", ""⟩ c8Tenant rfl
      (by decide) (by decide)
  · exact c8_resolution_correctness.2.1 c8Store (.db c8Db) c8Team 2 ⟨"acme", ""⟩ c8Tenant
      (ReachesTeam.dbApp c8Db c8App c8Team 1 rfl (by decide)
        (ReachesTeam.appTeam c8App c8Team rfl (by decide)))
      (by omega) rfl (by decide) (by decide)
  · exact c8_resolution_correctness.2.2 c8Store (.db c8DbNoOwner) c8Namespace "acme" c8Tenant
      ⟨by decide, by decide, by decide⟩ (by decide) (by decide) (by decide)
      (by decide) (by decide)

/-! ## C5 — broker-selection failure during provisioning -/

/-- C5 (amended): for a Database with an empty correlation ID (tenant
resolved, label in place, finalizer present), when no broker matches the
selection criteria the reconcile returns an error — so the work queue
retries with backoff — but the status phase is not left at Pending: the
reconciler first persists phase Provisioning and then persists phase Failed
on the selection failure. -/
theorem c5_selection_failure_sets_failed
    (env : BrokerEnv) (s : Store) (ns name : String) (db : Database) (t : Tenant)
    (hdb : s.findDatabase ns name = some db)
    (hdel : db.deleting = false)
    (hfin : db.finalizers.contains databaseFinalizerName = true)
    (hres : resolveTenant s (.db db) = .ok t)
    (hlab : getLabel db.labels tenantLabelKey = some t.name)
    (hdid : db.status.deploymentID = "")
    (hphase : db.status.phase = "Pending")
    (hnosel : ∀ b ∈ s.brokers, matchesCriteria b (dbCriteria db) = false) :
    databaseReconcile env s ns name =
      ⟨[s.setDatabase { db with status := { db.status with phase := "Provisioning" } },
        s.setDatabase { db with status := { db.status with phase := "Failed" } }],
       true, false⟩ := by
  have hsel : selectBroker env.now s.brokers (dbCriteria db) = none := by
    unfold selectBroker
    rw [List.filter_eq_nil_iff.mpr (by intro b hb; simp [hnosel b hb])]
    rfl
  unfold databaseReconcile
  rw [hdb]
  dsimp only
  rw [if_neg (by simp [hdel]), if_neg (fun hc => hc hfin), hres]
  dsimp only
  rw [if_neg (by simp [hlab]), if_neg (by simp [hdid]), if_pos (by simp [hphase]),
    if_pos (by simp [hphase]), if_pos (by simp [hphase])]
  rw [brokers_setDatabase, dbCriteria_setStatus, hsel]
  dsimp only
  rw [setDatabase_setDatabase s
    { db with status := { db.status with phase := "Provisioning" } }
    { db with status := { db.status with phase := "Failed" } } rfl rfl]
  rfl

def c5Env : BrokerEnv := ⟨0, fun _ _ => none, fun _ _ => none⟩

def c5Tenant : Tenant := ⟨"acme", false, [], "Active"⟩

def c5Db : Database :=
  ⟨"db1", "dev", [(tenantLabelKey, "acme")], [databaseFinalizerName], false,
   ⟨⟨"Tenant", "acme", ""⟩, "postgresql", "16", "small", ""⟩,
   ⟨"Pending", "", 0, none, "", none, []⟩⟩

/-- A store holding the Pending database, its Tenant, and no Broker at all:
every selection fails. -/
def c5Store : Store := ⟨[c5Tenant], [], [], [c5Db], [], []⟩

/-- C5 counterexample: the claim says the phase is left unchanged at
Pending.  Reconciling the Pending database when no broker matches returns
an error (the retry half of the claim holds) but persists phase
Provisioning and then phase Failed: the final stored phase is "Failed",
not "Pending". -/
theorem c5_selection_failure_counterexample :
    (databaseReconcile c5Env c5Store "dev" "db1").isErr = true ∧
    ((databaseReconcile c5Env c5Store "dev" "db1").writes.getLast?.bind
      (fun s1 => (s1.findDatabase "dev" "db1").map (fun d => d.status.phase))) =
      some "Failed" := by
  constructor
  · rfl
  · rfl

/-- C5 witness: the amended theorem applied at the concrete Pending
database and empty broker list above. -/
theorem c5_selection_failure_sets_failed_witness :
    databaseReconcile c5Env c5Store "dev" "db1" =
      ⟨[c5Store.setDatabase { c5Db with status := { c5Db.status with phase := "Provisioning" } },
        c5Store.setDatabase { c5Db with status := { c5Db.status with phase := "Failed" } }],
       true, false⟩ :=
  c5_selection_failure_sets_failed c5Env c5Store "dev" "db1" c5Db c5Tenant
    (by decide) rfl rfl rfl (by decide) rfl rfl
    (by intro b hb; cases hb)

/-! ## C1 — correlation ID and broker reference are write-once -/

/-- C1 (amended): once a Database's status deploymentID is non-empty,
neither it nor the brokerRef is changed by any reconcile write or by the
callback handler (whose database-key lookups assume the store's usual
unique (namespace, name) keys).  The claim's other half — that a record in
phase Provisioning always has them non-empty — fails: the reconciler
persists phase Provisioning before dispatching, see the counterexample. -/
theorem c1_correlation_write_once :
    (∀ (env : BrokerEnv) (s : Store) (ns name : String),
      ∀ s1 ∈ (databaseReconcile env s ns name).writes, IdsPreserved s s1) ∧
    (∀ (env : CallbackEnv) (s : Store) (req : HttpReq),
      s.databases.Pairwise (fun a b => ¬ (a.ns = b.ns ∧ a.name = b.name)) →
      IdsPreserved s (handleCallback env s req).2) := by
  constructor
  · intro env s ns name s1 hs1
    unfold databaseReconcile at hs1
    cases hdb : s.findDatabase ns name with
    | none => rw [hdb] at hs1; cases hs1
    | some db =>
      rw [hdb] at hs1
      dsimp only at hs1
      obtain ⟨hns, hname⟩ := findDatabase_eq_key hdb
      have hfind : s.findDatabase db.ns db.name = some db := by
        rw [hns, hname]; exact hdb
      by_cases hdel : db.deleting
      · rw [if_pos hdel] at hs1
        unfold dbHandleDeletion at hs1
        by_cases hfin : db.finalizers.contains databaseFinalizerName
        · rw [if_neg (not_not_intro hfin)] at hs1
          by_cases hcl : cleanupDatabase env s db
          · rw [if_pos hcl, List.mem_singleton] at hs1
            subst hs1
            exact idsPreserved_set s _ db hfind (fun _ => ⟨rfl, rfl⟩)
          · rw [if_neg hcl] at hs1; cases hs1
        · rw [if_pos hfin] at hs1; cases hs1
      · rw [if_neg hdel] at hs1
        by_cases hfin : db.finalizers.contains databaseFinalizerName
        · rw [if_neg (not_not_intro hfin)] at hs1
          cases hres : resolveTenant s (.db db) with
          | error e =>
            rw [hres] at hs1
            dsimp only at hs1
            rw [List.mem_singleton] at hs1
            subst hs1
            exact idsPreserved_set s _ db hfind (fun _ => ⟨rfl, rfl⟩)
          | ok tenant =>
            rw [hres] at hs1
            dsimp only at hs1
            by_cases hlab : getLabel db.labels tenantLabelKey ≠ some tenant.name
            · rw [if_pos hlab, List.mem_singleton] at hs1
              subst hs1
              exact idsPreserved_set s _ db hfind (fun _ => ⟨rfl, rfl⟩)
            · rw [if_neg hlab] at hs1
              by_cases hdid : db.status.deploymentID ≠ ""
              · rw [if_pos hdid] at hs1; cases hs1
              · rw [if_neg hdid] at hs1
                push_neg at hdid
                by_cases hph : db.status.phase ≠ "Provisioning"
                · rw [if_pos hph, if_pos hph, if_pos hph] at hs1
                  cases hsb : selectBroker env.now
                      ((s.setDatabase { db with status :=
                        { db.status with phase := "Provisioning" } }).brokers)
                      (dbCriteria { db with status :=
                        { db.status with phase := "Provisioning" } }) with
                  | none =>
                    rw [hsb] at hs1
                    dsimp only at hs1
                    rw [List.mem_append, List.mem_singleton, List.mem_singleton] at hs1
                    rcases hs1 with rfl | rfl
                    · exact idsPreserved_set s _ db hfind (fun _ => ⟨rfl, rfl⟩)
                    · exact idsPreserved_set_set s _ _ db rfl rfl hfind
                        (fun h => absurd hdid h)
                  | some broker =>
                    rw [hsb] at hs1
                    dsimp only at hs1
                    cases hpr : env.provision broker (buildProvisionReq
                        { db with status := { db.status with phase := "Provisioning" } }) with
                    | none =>
                      rw [hpr] at hs1
                      dsimp only at hs1
                      rw [List.mem_append, List.mem_singleton, List.mem_singleton] at hs1
                      rcases hs1 with rfl | rfl
                      · exact idsPreserved_set s _ db hfind (fun _ => ⟨rfl, rfl⟩)
                      · exact idsPreserved_set_set s _ _ db rfl rfl hfind
                          (fun h => absurd hdid h)
                    | some resp =>
                      rw [hpr] at hs1
                      dsimp only at hs1
                      rw [List.mem_append, List.mem_singleton, List.mem_singleton] at hs1
                      rcases hs1 with rfl | rfl
                      · exact idsPreserved_set s _ db hfind (fun _ => ⟨rfl, rfl⟩)
                      · exact idsPreserved_set_set s _ _ db rfl rfl hfind
                          (fun h => absurd hdid h)
                · rw [if_neg hph, if_neg hph, if_neg hph] at hs1
                  cases hsb : selectBroker env.now s.brokers (dbCriteria db) with
                  | none =>
                    rw [hsb] at hs1
                    dsimp only at hs1
                    rw [List.nil_append, List.mem_singleton] at hs1
                    subst hs1
                    exact idsPreserved_set s _ db hfind (fun h => absurd hdid h)
                  | some broker =>
                    rw [hsb] at hs1
                    dsimp only at hs1
                    cases hpr : env.provision broker (buildProvisionReq db) with
                    | none =>
                      rw [hpr] at hs1
                      dsimp only at hs1
                      rw [List.nil_append, List.mem_singleton] at hs1
                      subst hs1
                      exact idsPreserved_set s _ db hfind (fun h => absurd hdid h)
                    | some resp =>
                      rw [hpr] at hs1
                      dsimp only at hs1
                      rw [List.nil_append, List.mem_singleton] at hs1
                      subst hs1
                      exact idsPreserved_set s _ db hfind (fun h => absurd hdid h)
        · rw [if_pos hfin, List.mem_singleton] at hs1
          subst hs1
          exact idsPreserved_set s _ db hfind (fun _ => ⟨rfl, rfl⟩)
  · intro env s req huniq
    unfold handleCallback
    by_cases hm : req.method ≠ "POST"
    · rw [if_pos hm]; exact idsPreserved_refl s
    · rw [if_neg hm]
      cases hb : req.body with
      | none => exact idsPreserved_refl s
      | some cb =>
        dsimp only
        by_cases h1 : req.brokerName = "" ∨ req.timestampHdr = "" ∨ req.signatureHdr = ""
        · rw [if_pos h1]; exact idsPreserved_refl s
        · rw [if_neg h1]
          cases hts : env.parseTime req.timestampHdr with
          | none => exact idsPreserved_refl s
          | some ts =>
            dsimp only
            by_cases hwin : env.now - ts > 300 ∨ ts - env.now > 60
            · rw [if_pos hwin]; exact idsPreserved_refl s
            · rw [if_neg hwin]
              cases hbr : s.findBroker "default" req.brokerName with
              | none => exact idsPreserved_refl s
              | some br =>
                dsimp only
                by_cases hpub : (if br.status.callbackPublicKey = ""
                    then req.publicKeyHdr else br.status.callbackPublicKey) = ""
                · rw [if_pos hpub]; exact idsPreserved_refl s
                · rw [if_neg hpub]
                  by_cases hver : ¬ env.verify req.timestampHdr cb
                      (if br.status.callbackPublicKey = ""
                        then req.publicKeyHdr else br.status.callbackPublicKey)
                      req.signatureHdr
                  · rw [if_pos hver]; exact idsPreserved_refl s
                  · rw [if_neg hver]
                    by_cases hrt : cb.resourceType = "database"
                    · rw [if_pos hrt]
                      cases hdc : handleDatabaseCallback s cb with
                      | error e => exact idsPreserved_refl s
                      | ok s2 =>
                        dsimp only
                        unfold handleDatabaseCallback at hdc
                        cases hm2 : s.findDbByDeployment cb.ns cb.deploymentId with
                        | none => rw [hm2] at hdc; cases hdc
                        | some m =>
                          rw [hm2] at hdc
                          injection hdc with hdc
                          subst hdc
                          have hmem := findDbByDeployment_mem hm2
                          have hfindm := findDatabase_of_mem_uniq huniq hmem
                          obtain ⟨_, _, hdid2, hbr2⟩ := updateDbCallback_key_ids m cb
                          exact idsPreserved_set s (updateDbCallback m cb) m hfindm
                            (fun _ => ⟨hdid2, hbr2⟩)
                    · rw [if_neg hrt]; exact idsPreserved_refl s

/-- C1 counterexample: the claim also asserts that a record in phase
Provisioning has a non-empty deploymentId and brokerRef.  Reconciling the
Pending database of `c5Store` first persists a store in which the record's
phase is "Provisioning" while deploymentId is "" and brokerRef is absent —
the reconciler writes the Provisioning phase before dispatching to a
broker. -/
theorem c1_provisioning_empty_ids_counterexample :
    ((databaseReconcile c5Env c5Store "dev" "db1").writes.head?.bind
      (fun s1 => (s1.findDatabase "dev" "db1").map
        (fun d => (d.status.phase, d.status.deploymentID, d.status.brokerRef)))) =
      some ("Provisioning", "", none) := by
  rfl

def c1Env : BrokerEnv := ⟨0, fun _ _ => none, fun _ _ => none⟩

def c1CbEnv : CallbackEnv := ⟨0, fun _ => some 0, fun _ _ _ _ => true⟩

def c1Tenant : Tenant := ⟨"acme", false, [], "Active"⟩

/-- A provisioned database (non-empty deploymentID and brokerRef) whose
tenant label is still missing, so the next reconcile performs a write. -/
def c1Db : Database :=
  ⟨"db1", "dev", [], [databaseFinalizerName], false,
   ⟨⟨"Tenant", "acme", ""⟩, "postgresql", "16", "small", ""⟩,
   ⟨"Provisioning", "", 0, none, "dep-1", some ⟨"b1", "default"⟩, []⟩⟩

def c1Broker : Broker :=
  ⟨"b1", "default", ⟨"http://b1.example", "", "azure", [⟨"Database", ["postgresql"]⟩], 100, 0⟩,
   ⟨"Ready", none, 0, "cHVi"⟩⟩

def c1Store : Store := ⟨[c1Tenant], [], [], [c1Db], [c1Broker], []⟩

def c1Req : HttpReq :=
  ⟨"POST", some ⟨"dep-1", "database", "db1", "dev", "in-progress", "Provisioning",
    "working", "", 3, "", 0, ""⟩, "b1", "2025-01-01T00:00:00Z", "c2ln", ""⟩

/-- C1 witness: the write-once theorem applied to the reconcile write that
stamps the tenant label on the provisioned record, and to a verified
in-progress callback that updates the same record's status. -/
theorem c1_correlation_write_once_witness :
    IdsPreserved c1Store
      (c1Store.setDatabase { c1Db with labels := [(tenantLabelKey, "acme")] }) ∧
    IdsPreserved c1Store (handleCallback c1CbEnv c1Store c1Req).2 := by
  constructor
  · exact c1_correlation_write_once.1 c1Env c1Store "dev" "db1"
      (c1Store.setDatabase { c1Db with labels := [(tenantLabelKey, "acme")] })
      (by decide)
  · exact c1_correlation_write_once.2 c1CbEnv c1Store c1Req (by decide)

end Kidp
